import Mathlib

/-!
# dtlsproxy: the DTLS callback surface of `proxy.c`

A shallow embedding of `src/proxy.c` (the PSK lookup, the deliver-plaintext and
event callbacks, the listen-socket handler and the shutdown path) together with
the session table those functions call into.

Conventions of the embedding.

* A C buffer `(ptr, len)` is a `List Byte`; `len` is the list's length and a
  `NULL` pointer is `none`.
* A singly linked list (`keystore_t`, `session_context_t`) is a `List` of its
  nodes in link order.
* A function that mutates `proxy_context_t` takes the context and returns the
  new one next to its C return value.
* System calls and calls into the DTLS engine are appended to the context's
  `trace`; what the outside world answers (the result of `send`, whether an
  allocation succeeds) is read from an `environment` record.
-/

namespace DtlsProxy

/-! ## Data model -/

/-- One octet (`uint8` / `unsigned char`). -/
abbrev Byte := Fin 256

/-- The peer identity `session_t`: the valid bytes of the remote socket address.
Two identities are equal iff these bytes are. -/
structure session_t where
  addr : List Byte
deriving DecidableEq, Repr

/-- The engine's peer handle `dtls_peer_t`; the proxy only reads the address it is keyed by. -/
structure dtls_peer_t where
  session : session_t
deriving DecidableEq, Repr

/-- The credential kinds the engine may ask `get_psk_info` for. -/
inductive dtls_credentials_type_t where
  | DTLS_PSK_HINT
  | DTLS_PSK_IDENTITY
  | DTLS_PSK_KEY
deriving DecidableEq, Repr

/-- The alert descriptions `proxy.c` names. -/
inductive dtls_alert_t where
  | DTLS_ALERT_DECRYPT_ERROR
  | DTLS_ALERT_INTERNAL_ERROR
deriving DecidableEq, Repr

/-- The codes `dtls_event` switches on; `other` stands for every code without a `case` label. -/
inductive dtls_event_code where
  | DTLS_ALERT_CLOSE_NOTIFY
  | DTLS_EVENT_CONNECT
  | DTLS_EVENT_CONNECTED
  | DTLS_EVENT_RENEGOTIATE
  | other (code : Nat)
deriving DecidableEq, Repr

/-- One node of the keystore list. `id` is the identity pointer (`none` when `NULL`),
`id_length` and `key_length` are the lengths of the two buffers. -/
structure keystore_t where
  id : Option (List Byte)
  key : List Byte
deriving DecidableEq, Repr

/-- Per-peer session state, with the fields of the sibling `client_context_t` of
`client.h`: the peer address, the index, the backend socket, whether the backend
read watcher is registered, and the inactivity timer (`some t` when armed with `t`
seconds left, `none` when stopped). -/
structure session_context_t where
  address : session_t
  index : Nat
  backend_fd : Int
  backend_rd_watcher : Bool
  inactive_timer : Option Nat
deriving DecidableEq, Repr

/-- What the proxy does to the outside world, in program order. -/
inductive effect where
  | send (fd : Int) (data : List Byte)
  | close (fd : Int)
  | ev_io_stop (fd : Int)
  | ev_timer_stop (peer : session_t)
  | err_truncated (lost : Int)
  | perror_recvfrom
  | dtls_handle_message (session : session_t) (buf : List Byte) (len : Int)
  | dtls_free_context
  | free_keystore
deriving DecidableEq, Repr

/-- The field `listen` of the proxy context. -/
structure listen_ctx where
  fd : Int
  addr : Option session_t
deriving DecidableEq, Repr

/-- The field `backends` of the proxy context. -/
structure backends_ctx where
  addr : Option session_t
  count : Nat
  index : Nat
deriving DecidableEq, Repr

/-- The proxy core state `proxy_context_t`, extended with the trace of effects. -/
structure proxy_context_t where
  listen : listen_ctx
  backends : backends_ctx
  psk : List keystore_t
  sessions : List session_context_t
  trace : List effect
deriving DecidableEq, Repr

/-- What the outside world answers during one callback. -/
structure environment where
  /-- result of `send(fd, data, len, 0)` -/
  send : Int → List Byte → Int
  /-- does allocating a session succeed -/
  malloc_ok : Bool
  /-- descriptor returned when a backend socket is created, `none` on failure -/
  socket : Option Int
  /-- does connecting the backend socket succeed -/
  connect_ok : Bool
  /-- the configured idle interval of the inactivity timer -/
  idle_interval : Nat

/-! ## `get_psk_info` -/

/-- The test `memcmp(a, b, n) == 0`: the first `n` bytes agree. -/
def memcmp_eq (a b : List Byte) (n : Nat) : Bool :=
  a.take n == b.take n

/-- The call `memcpy(dst, src, n)`: the first `n` bytes of `dst` are replaced by those of `src`. -/
def memcpy (dst src : List Byte) (n : Nat) : List Byte :=
  src.take n ++ dst.drop n

/-- The conversion of a `size_t` value to the `int` return type, as `return psk->key_length`
performs it: the low 32 bits, read in two's complement. -/
def int_of_size_t (n : Nat) : Int :=
  if n % 4294967296 < 2147483648 then ((n % 4294967296 : Nat) : Int)
  else ((n % 4294967296 : Nat) : Int) - 4294967296

/-- The `for` loop of `get_psk_info` (lines 23-33). `some r` is a `return r` from inside
the loop, `none` is the loop ending, which happens at the end of the list and also at
the first node whose `id` is `NULL` (the guard `psk && psk->id`). -/
def psk_loop (alert : dtls_alert_t → Int) (id result : List Byte) :
    List keystore_t → Option (Int × List Byte)
  | [] => none
  | psk :: next =>
    match psk.id with
    | none => none
    | some psk_id =>
      if id.length = psk_id.length ∧ memcmp_eq id psk_id id.length = true then
        if result.length < psk.key.length then
          some (alert .DTLS_ALERT_INTERNAL_ERROR, result)
        else
          some (int_of_size_t psk.key.length, memcpy result psk.key psk.key.length)
      else
        psk_loop alert id result next

/-- The PSK callback `get_psk_info` (lines 12-37). `alert` is the engine's
`dtls_alert_fatal_create`, `ctx` the result of `dtls_get_app_data`, `id` the requested
identity (`none` when `NULL`) and `result` the caller's buffer; the value is the C
return value and the buffer afterwards. The key length, a `size_t`, is returned through
the `int` return type (`int_of_size_t`). -/
def get_psk_info (alert : dtls_alert_t → Int) (ctx : Option proxy_context_t)
    (type : dtls_credentials_type_t) (id : Option (List Byte)) (result : List Byte) :
    Int × List Byte :=
  if type ≠ .DTLS_PSK_KEY then
    (0, result)
  else
    match id, ctx with
    | some id, some ctx =>
      match psk_loop alert id result ctx.psk with
      | some r => r
      | none => (alert .DTLS_ALERT_DECRYPT_ERROR, result)
    | _, _ => (alert .DTLS_ALERT_DECRYPT_ERROR, result)

/-- The keystore as the lookup sees it: the `(identity, key)` pairs of the nodes in load
order, up to the end of the list or the first node that carries no identity. -/
def stored_entries : List keystore_t → List (List Byte × List Byte)
  | [] => []
  | psk :: next =>
    match psk.id with
    | none => []
    | some psk_id => (psk_id, psk.key) :: stored_entries next

/-! ## The session table

`session.c` is not among the sources; `proxy.c` only calls into it and walks the list
`ctx->sessions` itself (`proxy_exit`, `proxy_deinit`). -/

/-- Modelled from the spec: `find_session` of the missing `session.c`, "find_session(peer_identity)
→ session | none", a linear search of the table by peer identity. -/
def find_session (ctx : proxy_context_t) (addr : session_t) : Option session_context_t :=
  ctx.sessions.find? (fun sc => decide (sc.address = addr))

/-- The smallest non-negative index no session of the list carries. -/
def unused_index (sessions : List session_context_t) : Nat :=
  ((List.range (sessions.length + 1)).find?
    (fun i => !(sessions.any (fun sc => decide (sc.index = i))))).getD sessions.length

/-- Modelled from the spec: `new_session` of the missing `session.c`, "allocates an identity
slot, assigns the smallest unused non-negative index, records peer identity ... Fails if the
identity is already present or resources are exhausted". The backend socket is not open yet
(it is "created on session start"), the new node is linked at the head of the list, and a
`NULL` peer handle is a failure. -/
def new_session (env : environment) (ctx : proxy_context_t) (peer : Option dtls_peer_t) :
    Option session_context_t × proxy_context_t :=
  match peer with
  | none => (none, ctx)
  | some p =>
    if (find_session ctx p.session).isSome then (none, ctx)
    else if env.malloc_ok = false then (none, ctx)
    else
      let sc : session_context_t :=
        { address := p.session, index := unused_index ctx.sessions, backend_fd := -1,
          backend_rd_watcher := false, inactive_timer := none }
      (some sc, { ctx with sessions := sc :: ctx.sessions })

/-- Apply `f` to the first session of the list keyed by `addr` (the node a session pointer
for that peer points to). -/
def update_session (addr : session_t) (f : session_context_t → session_context_t) :
    List session_context_t → List session_context_t
  | [] => []
  | sc :: next =>
    if sc.address = addr then f sc :: next else sc :: update_session addr f next

/-- Modelled from the spec: `free_session` of the missing `session.c`, "removes from the table
and releases memory". A session pointer is represented by the peer identity of its node:
the first node of the list with the identity of `sc` is unlinked. -/
def free_session (ctx : proxy_context_t) (sc : session_context_t) : proxy_context_t :=
  { ctx with sessions := ctx.sessions.eraseP (fun s => decide (s.address = sc.address)) }

/-- Modelled from the spec: `start_session` of the missing `session.c`: create the backend
socket, connect it, register the read watcher and arm the inactivity timer with the idle
interval; "on any step's failure, roll back (close socket, unregister watcher) and return
an error". -/
def start_session (env : environment) (ctx : proxy_context_t) (sc : session_context_t) :
    Int × proxy_context_t :=
  match env.socket with
  | none => (-1, ctx)
  | some fd =>
    if env.connect_ok = false then
      (-1, { ctx with trace := ctx.trace ++ [effect.close fd] })
    else
      let armed : session_context_t → session_context_t := fun s =>
        { s with backend_fd := fd, backend_rd_watcher := true,
                 inactive_timer := some env.idle_interval }
      (0, { ctx with sessions := update_session sc.address armed ctx.sessions })

/-- Is the session already stopped: no watcher, no timer, no socket. -/
def session_stopped (sc : session_context_t) : Bool :=
  !sc.backend_rd_watcher && sc.inactive_timer.isNone && decide (sc.backend_fd < 0)

/-- Modelled from the spec: `stop_session` of the missing `session.c`: "1. Deregister backend
readable watcher. 2. Disarm the inactivity timer. 3. Close the backend socket", and "calling
it on an already-stopped session is a no-op". -/
def stop_session (ctx : proxy_context_t) (sc : session_context_t) : proxy_context_t :=
  match find_session ctx sc.address with
  | none => ctx
  | some cur =>
    if session_stopped cur then ctx
    else
      let stopped : session_context_t → session_context_t := fun s =>
        { s with backend_fd := -1, backend_rd_watcher := false, inactive_timer := none }
      { ctx with
        sessions := update_session sc.address stopped ctx.sessions
        trace := ctx.trace ++ [effect.ev_io_stop cur.backend_fd,
                               effect.ev_timer_stop cur.address,
                               effect.close cur.backend_fd] }

/-- The invariant of the session table: at most one session per peer identity. -/
def sessions_unique (ctx : proxy_context_t) : Prop :=
  (ctx.sessions.map (fun sc => sc.address)).Nodup

instance (ctx : proxy_context_t) : Decidable (sessions_unique ctx) := by
  unfold sessions_unique
  infer_instance

/-! ## The callbacks of `proxy.c` -/

/-- The deliver-plaintext callback `dtls_read_from_peer` (lines 50-69, the `#else` branch
that is compiled): look the session up, `send` the bytes on its backend socket and return
what `send` returned; `-1` without a session. -/
def dtls_read_from_peer (env : environment) (ctx : proxy_context_t)
    (dtls_session : session_t) (data : List Byte) : Int × proxy_context_t :=
  match find_session ctx dtls_session with
  | some sc =>
    (env.send sc.backend_fd data,
     { ctx with trace := ctx.trace ++ [effect.send sc.backend_fd data] })
  | none => (-1, ctx)

/-- The event callback `dtls_event` (lines 71-113). `peer` is what `dtls_get_peer` returned
for `dtls_session`; `level` is only logged. -/
def dtls_event (env : environment) (ctx : proxy_context_t) (dtls_session : session_t)
    (peer : Option dtls_peer_t) (_level : Nat) (code : dtls_event_code) :
    Int × proxy_context_t :=
  match code with
  | .DTLS_ALERT_CLOSE_NOTIFY =>
    match find_session ctx dtls_session with
    | some sc => (0, free_session (stop_session ctx sc) sc)
    | none => (0, ctx)
  | .DTLS_EVENT_CONNECT => (0, ctx)
  | .DTLS_EVENT_CONNECTED =>
    match new_session env ctx peer with
    | (none, ctx1) => (-1, ctx1)
    | (some sc, ctx1) =>
      match start_session env ctx1 sc with
      | (r, ctx2) => if r ≠ 0 then (-1, free_session ctx2 sc) else (0, ctx2)
  | .DTLS_EVENT_RENEGOTIATE => (0, ctx)
  | .other _ => (0, ctx)

/-! ## The listen-socket handler -/

/-- The call `recvfrom(fd, buf, size, MSG_TRUNC, ...)` on a datagram socket. `rx` is the
datagram at the head of the queue with its source, or `none` when the call fails. With
`MSG_TRUNC` the return value is the real length of the datagram even when it is longer
than the buffer; the buffer receives at most `size` bytes. -/
def recvfrom_trunc (size : Nat) (buf : List Byte) (rx : Option (session_t × List Byte)) :
    Int × session_t × List Byte :=
  match rx with
  | none => (-1, { addr := [] }, buf)
  | some (src, datagram) =>
    ((datagram.length : Int), src, memcpy buf datagram (min datagram.length size))

/-- The readable handler `proxy_cb` of the listen socket (lines 229-255). `DTLS_MAX_BUF` is
the engine's buffer size, `buf` the contents of the static receive buffer before the call. -/
def proxy_cb (DTLS_MAX_BUF : Nat) (ctx : proxy_context_t) (buf : List Byte)
    (rx : Option (session_t × List Byte)) : proxy_context_t :=
  match recvfrom_trunc DTLS_MAX_BUF buf rx with
  | (len, session, buf1) =>
    if len < 0 then
      { ctx with trace := ctx.trace ++ [effect.perror_recvfrom] }
    else
      let ctx1 : proxy_context_t :=
        if (DTLS_MAX_BUF : Int) < len then
          { ctx with trace := ctx.trace ++ [effect.err_truncated (len - DTLS_MAX_BUF)] }
        else ctx
      { ctx1 with trace := ctx1.trace ++ [effect.dtls_handle_message session buf1 len] }

/-! ## Shutdown -/

/-- Lines 298-301 of `proxy_deinit`: close the listen socket if it is open. -/
def deinit_listen_fd (ctx : proxy_context_t) : proxy_context_t :=
  if ctx.listen.fd > 0 then
    { ctx with listen := { ctx.listen with fd := -1 }
               trace := ctx.trace ++ [effect.close ctx.listen.fd] }
  else ctx

/-- Lines 303-306 of `proxy_deinit`: free the listen address. -/
def deinit_listen_addr (ctx : proxy_context_t) : proxy_context_t :=
  if ctx.listen.addr ≠ none then
    { ctx with listen := { ctx.listen with addr := none } }
  else ctx

/-- Lines 308-313 of `proxy_deinit`: free the backend address. -/
def deinit_backends (ctx : proxy_context_t) : proxy_context_t :=
  if ctx.backends.addr ≠ none then
    { ctx with backends := { addr := none, count := 0, index := 0 } }
  else ctx

/-- Lines 315-318 of `proxy_deinit`: `while (ctx->sessions) free_session(ctx, ctx->sessions)`.
The value lists the context after each iteration; `none` means the fuel ran out while the
list was still non-empty. -/
def deinit_sessions : Nat → proxy_context_t → Option (List proxy_context_t)
  | fuel, ctx =>
    match ctx.sessions with
    | [] => some []
    | sc :: _ =>
      match fuel with
      | 0 => none
      | fuel + 1 =>
        (deinit_sessions fuel (free_session ctx sc)).map
          (fun rest => free_session ctx sc :: rest)

/-- Line 320 of `proxy_deinit`. -/
def deinit_dtls (ctx : proxy_context_t) : proxy_context_t :=
  { ctx with trace := ctx.trace ++ [effect.dtls_free_context] }

/-- Line 321 of `proxy_deinit`. -/
def deinit_keystore (ctx : proxy_context_t) : proxy_context_t :=
  { ctx with trace := ctx.trace ++ [effect.free_keystore] }

/-- The shutdown path `proxy_deinit` (lines 294-322) as the list of contexts it passes
through, one after each statement and each loop iteration, in program order. -/
def proxy_deinit_states (fuel : Nat) (ctx : proxy_context_t) : Option (List proxy_context_t) :=
  let c1 := deinit_listen_fd ctx
  let c2 := deinit_listen_addr c1
  let c3 := deinit_backends c2
  match deinit_sessions fuel c3 with
  | none => none
  | some freed =>
    let c4 := (freed.getLast?).getD c3
    let c5 := deinit_dtls c4
    let c6 := deinit_keystore c5
    some ([c1, c2, c3] ++ freed ++ [c5, c6])

/-- The context `proxy_deinit` leaves behind. -/
def proxy_deinit (fuel : Nat) (ctx : proxy_context_t) : Option proxy_context_t :=
  (proxy_deinit_states fuel ctx).bind (fun states => states.getLast?)

/-! ## Sample data -/

/-- A sample encoding of fatal alerts as negative return values. -/
def sample_alert : dtls_alert_t → Int
  | .DTLS_ALERT_DECRYPT_ERROR => -563
  | .DTLS_ALERT_INTERNAL_ERROR => -592

/-- A sample keystore: `client1` twice, with different keys, then `client2`. -/
def sample_keystore : List keystore_t :=
  [ { id := some [99, 49], key := [1, 2, 3] },
    { id := some [99, 49], key := [7, 7, 7, 7, 7] },
    { id := some [99, 50], key := [4, 5] } ]

/-- A proxy context holding the given keystore and sessions, listening on descriptor 3. -/
def sample_ctx (psk : List keystore_t) (sessions : List session_context_t) :
    proxy_context_t :=
  { listen := { fd := 3, addr := some { addr := [127, 0, 0, 1] } }
    backends := { addr := some { addr := [10, 0, 0, 1] }, count := 1, index := 0 }
    psk := psk
    sessions := sessions
    trace := [] }

/-- A live session of peer `10.0.0.7` on backend descriptor 5, one second before its
inactivity timer fires. -/
def sample_session : session_context_t :=
  { address := { addr := [10, 0, 0, 7] }, index := 0, backend_fd := 5,
    backend_rd_watcher := true, inactive_timer := some 1 }

/-- A live session of another peer, `10.0.0.8`, on backend descriptor 6. -/
def other_session : session_context_t :=
  { address := { addr := [10, 0, 0, 8] }, index := 1, backend_fd := 6,
    backend_rd_watcher := true, inactive_timer := some 200 }

/-- An outside world in which every `send` delivers all bytes and every resource is there. -/
def good_env : environment :=
  { send := fun _ data => (data.length : Int), malloc_ok := true, socket := some 7,
    connect_ok := true, idle_interval := 300 }

/-- An outside world in which every `send` fails and the backend cannot be connected. -/
def failing_env : environment :=
  { send := fun _ _ => -1, malloc_ok := true, socket := some 7,
    connect_ok := false, idle_interval := 300 }

/-- An outside world out of memory. -/
def exhausted_env : environment :=
  { send := fun _ _ => -1, malloc_ok := false, socket := none,
    connect_ok := false, idle_interval := 300 }

/-! ## The PSK lookup -/

/-- The comparison of `get_psk_info`, length first and then `memcmp`, is equality of the
two identities. -/
theorem id_match_iff (id psk_id : List Byte) :
    (id.length = psk_id.length ∧ memcmp_eq id psk_id id.length = true) ↔ id = psk_id := by
  constructor
  · rintro ⟨hlen, hcmp⟩
    have h : id.take id.length = psk_id.take id.length := by
      simpa [memcmp_eq] using hcmp
    rw [List.take_length, hlen, List.take_length] at h
    exact h
  · rintro rfl
    simp [memcmp_eq]

/-- When no identity the lookup can see equals the request, the loop ends without returning. -/
theorem psk_loop_absent (alert : dtls_alert_t → Int) (id result : List Byte) :
    ∀ ks : List keystore_t, (∀ e ∈ stored_entries ks, e.1 ≠ id) →
      psk_loop alert id result ks = none := by
  intro ks
  induction ks with
  | nil => intro _; rfl
  | cons psk next ih =>
    intro h
    unfold psk_loop
    cases hid : psk.id with
    | none => rfl
    | some psk_id =>
      simp only [stored_entries, hid] at h
      have hne : ¬ (id = psk_id) := fun e => h (psk_id, psk.key) (by simp) e.symm
      have hcond : ¬ (id.length = psk_id.length ∧ memcmp_eq id psk_id id.length = true) :=
        fun hc => hne ((id_match_iff id psk_id).1 hc)
      simp only [hcond, if_false]
      exact ih (fun e he => h e (by simp [he]))

/-- When the first entry with the requested identity has key `key`, the loop returns from
that entry: the internal-error alert if the buffer is too short, the copied key otherwise. -/
theorem psk_loop_found (alert : dtls_alert_t → Int) (id result key : List Byte) :
    ∀ ks : List keystore_t,
      (stored_entries ks).find? (fun e => decide (e.1 = id)) = some (id, key) →
      psk_loop alert id result ks =
        if result.length < key.length then
          some (alert .DTLS_ALERT_INTERNAL_ERROR, result)
        else
          some (int_of_size_t key.length, memcpy result key key.length) := by
  intro ks
  induction ks with
  | nil => intro h; simp [stored_entries] at h
  | cons psk next ih =>
    intro h
    unfold psk_loop
    cases hid : psk.id with
    | none => simp [stored_entries, hid] at h
    | some psk_id =>
      simp only [stored_entries, hid] at h
      by_cases heq : id = psk_id
      · subst heq
        have hcond : id.length = id.length ∧ memcmp_eq id id id.length = true :=
          (id_match_iff id id).2 rfl
        simp only [List.find?_cons, decide_True] at h
        have hk : psk.key = key := by
          have := Option.some.inj h
          exact congrArg Prod.snd this
        simp only [hcond, and_self, if_true, hk]
      · have hcond : ¬ (id.length = psk_id.length ∧ memcmp_eq id psk_id id.length = true) :=
          fun hc => heq ((id_match_iff id psk_id).1 hc)
        have hdec : decide (psk_id = id) = false := by
          simp [Ne.symm heq]
        simp only [List.find?_cons, hdec] at h
        simp only [hcond, if_false]
        exact ih h

/-- When every node of the keystore carries an identity, the lookup sees all of them: the
stored entries are the `(identity, key)` pairs of all nodes, in load order. -/
theorem stored_entries_all (ks : List keystore_t) (h : ∀ psk ∈ ks, psk.id ≠ none) :
    stored_entries ks = ks.filterMap (fun psk => psk.id.map (fun i => (i, psk.key))) ∧
      (stored_entries ks).length = ks.length := by
  induction ks with
  | nil => exact ⟨rfl, rfl⟩
  | cons psk next ih =>
    cases hid : psk.id with
    | none => exact absurd hid (h psk (by simp))
    | some psk_id =>
      obtain ⟨h1, h2⟩ := ih (fun q hq => h q (by simp [hq]))
      constructor
      · simp only [stored_entries, hid]
        rw [h1, List.filterMap_cons]
        simp [hid]
      · simp only [stored_entries, hid, List.length_cons]
        rw [h2]

/-- A query for anything but the key itself is not handled: the return value is 0 and the
buffer is untouched. -/
theorem get_psk_info_other_type (alert : dtls_alert_t → Int) (ctx : Option proxy_context_t)
    (type : dtls_credentials_type_t) (id : Option (List Byte)) (result : List Byte)
    (h : type ≠ .DTLS_PSK_KEY) :
    get_psk_info alert ctx type id result = (0, result) := by
  simp [get_psk_info, h]

/-- The loop guard at work: a node without an identity ends the list for the lookup, so an
identity linked behind such a node is not a stored entry and is answered like any other
unknown identity. -/
theorem get_psk_info_behind_null_id :
    stored_entries ({ id := none, key := [] } :: sample_keystore) = [] ∧
    get_psk_info sample_alert
      (some (sample_ctx ({ id := none, key := [] } :: sample_keystore) []))
      .DTLS_PSK_KEY (some [99, 49]) [9, 9, 9, 9, 9] = (-563, [9, 9, 9, 9, 9]) := by
  decide

/-- C1: for every keystore and every `PSK_KEY` query whose identity equals no stored
identity, `get_psk_info` returns the fatal decrypt-error alert and the result buffer is
what it was, so no key byte reaches the caller. -/
theorem get_psk_info_absent (alert : dtls_alert_t → Int) (ctx : proxy_context_t)
    (id : Option (List Byte)) (result : List Byte)
    (h : ∀ e ∈ stored_entries ctx.psk, id ≠ some e.1) :
    get_psk_info alert (some ctx) .DTLS_PSK_KEY id result =
      (alert .DTLS_ALERT_DECRYPT_ERROR, result) := by
  cases id with
  | none => simp [get_psk_info]
  | some bytes =>
    have hloop := psk_loop_absent alert bytes result ctx.psk
      (fun e he hb => h e he (by rw [hb]))
    simp [get_psk_info, hloop]

/-- The witness of C1: identity `c3` is not in the sample keystore. -/
theorem get_psk_info_absent_witness :
    (∀ e ∈ stored_entries (sample_ctx sample_keystore []).psk, some [99, 51] ≠ some e.1) ∧
    get_psk_info sample_alert (some (sample_ctx sample_keystore [])) .DTLS_PSK_KEY
      (some [99, 51]) [0, 0, 0, 0] = (-563, [0, 0, 0, 0]) :=
  ⟨by decide,
   get_psk_info_absent sample_alert (sample_ctx sample_keystore []) (some [99, 51])
     [0, 0, 0, 0] (by decide)⟩

/-- C3: for every `PSK_KEY` query whose identity matches a stored entry while the result
buffer is shorter than the key of the entry the lookup stops at, `get_psk_info` returns
the fatal internal-error alert and the result buffer is what it was. -/
theorem get_psk_info_short_buffer (alert : dtls_alert_t → Int) (ctx : proxy_context_t)
    (id key result : List Byte)
    (hfirst : (stored_entries ctx.psk).find? (fun e => decide (e.1 = id)) = some (id, key))
    (hshort : result.length < key.length) :
    get_psk_info alert (some ctx) .DTLS_PSK_KEY (some id) result =
      (alert .DTLS_ALERT_INTERNAL_ERROR, result) := by
  have hloop := psk_loop_found alert id result key ctx.psk hfirst
  rw [if_pos hshort] at hloop
  simp [get_psk_info, hloop]

/-- The witness of C3: a two-byte buffer cannot hold the three-byte key of `c1`. -/
theorem get_psk_info_short_buffer_witness :
    (stored_entries (sample_ctx sample_keystore []).psk).find?
        (fun e => decide (e.1 = [99, 49])) = some ([99, 49], [1, 2, 3]) ∧
    get_psk_info sample_alert (some (sample_ctx sample_keystore [])) .DTLS_PSK_KEY
      (some [99, 49]) [9, 9] = (-592, [9, 9]) :=
  ⟨by decide,
   get_psk_info_short_buffer sample_alert (sample_ctx sample_keystore []) [99, 49] [1, 2, 3]
     [9, 9] (by decide) (by decide)⟩

/-! ## The session table -/

/-- A session found for an address is in the table and carries that address. -/
theorem find_session_some {ctx : proxy_context_t} {addr : session_t}
    {sc : session_context_t} (h : find_session ctx addr = some sc) :
    sc ∈ ctx.sessions ∧ sc.address = addr := by
  unfold find_session at h
  refine ⟨List.mem_of_find?_eq_some h, ?_⟩
  have := List.find?_some h
  simpa using this

/-- No session is found for an address exactly when no session of the table carries it. -/
theorem find_session_none {ctx : proxy_context_t} {addr : session_t} :
    find_session ctx addr = none ↔ ∀ sc ∈ ctx.sessions, sc.address ≠ addr := by
  unfold find_session
  simp [List.find?_eq_none]

/-- Unlinking the node of `addr` keeps exactly the sessions of other peers among those
that do not carry `addr`. -/
theorem mem_eraseP_other (addr : session_t) (x : session_context_t) (hx : x.address ≠ addr) :
    ∀ l : List session_context_t,
      x ∈ l.eraseP (fun s => decide (s.address = addr)) ↔ x ∈ l := by
  intro l
  induction l with
  | nil => simp
  | cons y t ih =>
    by_cases hy : y.address = addr
    · have hxy : x ≠ y := fun e => hx (e ▸ hy)
      simp [List.eraseP_cons, hy, hxy]
    · simp [List.eraseP_cons, hy, ih]

/-- In a table with one session per peer, unlinking the node of `addr` leaves no session
carrying `addr`. -/
theorem eraseP_no_addr (addr : session_t) :
    ∀ l : List session_context_t, (l.map (fun sc => sc.address)).Nodup →
      ∀ x ∈ l.eraseP (fun s => decide (s.address = addr)), x.address ≠ addr := by
  intro l
  induction l with
  | nil => simp
  | cons y t ih =>
    intro hnd x hx
    rw [List.map_cons, List.nodup_cons] at hnd
    by_cases hy : y.address = addr
    · simp only [List.eraseP_cons, hy, decide_True, cond_true] at hx
      intro hxa
      apply hnd.1
      rw [hy, ← hxa]
      exact List.mem_map_of_mem _ hx
    · simp only [List.eraseP_cons, hy, decide_False, cond_false, List.mem_cons] at hx
      rcases hx with rfl | hx
      · exact hy
      · exact ih hnd.2 x hx

/-- Rewriting the node of `addr` without touching its address keeps the addresses of the
table, node by node. -/
theorem map_address_update (addr : session_t) (f : session_context_t → session_context_t)
    (hf : ∀ sc, (f sc).address = sc.address) :
    ∀ l : List session_context_t,
      (update_session addr f l).map (fun sc => sc.address) = l.map (fun sc => sc.address) := by
  intro l
  induction l with
  | nil => rfl
  | cons y t ih =>
    unfold update_session
    by_cases hy : y.address = addr
    · simp [hy, hf]
    · simp [hy, ih]

/-- Rewriting the node of `addr` without touching its address leaves the sessions of every
other peer as they were. -/
theorem mem_update_other (addr : session_t) (f : session_context_t → session_context_t)
    (hf : ∀ sc, (f sc).address = sc.address) (x : session_context_t) (hx : x.address ≠ addr) :
    ∀ l : List session_context_t, x ∈ update_session addr f l ↔ x ∈ l := by
  intro l
  induction l with
  | nil => simp [update_session]
  | cons y t ih =>
    unfold update_session
    by_cases hy : y.address = addr
    · have h1 : x ≠ f y := fun e => hx (by rw [e, hf, hy])
      have h2 : x ≠ y := fun e => hx (e ▸ hy)
      simp [hy, h1, h2]
    · simp [hy, ih]

/-- Stopping a session leaves the addresses of the table, node by node. -/
theorem stop_session_addresses (ctx : proxy_context_t) (sc : session_context_t) :
    (stop_session ctx sc).sessions.map (fun s => s.address) =
      ctx.sessions.map (fun s => s.address) := by
  unfold stop_session
  cases find_session ctx sc.address with
  | none => rfl
  | some cur =>
    by_cases hs : session_stopped cur = true
    · simp [hs]
    · have hs' : session_stopped cur = false := by simpa using hs
      simp only [hs', Bool.false_eq_true, if_false]
      apply map_address_update
      intro _
      rfl

/-- Stopping a session leaves the sessions of every other peer as they were. -/
theorem stop_session_other (ctx : proxy_context_t) (sc x : session_context_t)
    (hx : x.address ≠ sc.address) :
    x ∈ (stop_session ctx sc).sessions ↔ x ∈ ctx.sessions := by
  unfold stop_session
  cases find_session ctx sc.address with
  | none => rfl
  | some cur =>
    by_cases hs : session_stopped cur = true
    · simp [hs]
    · have hs' : session_stopped cur = false := by simpa using hs
      simp only [hs', Bool.false_eq_true, if_false]
      apply mem_update_other
      · intro _
        rfl
      · exact hx

/-- A successful `new_session` was called for a peer without a session, and links the new
session, keyed by that peer, at the head of the table. -/
theorem new_session_some {env : environment} {ctx : proxy_context_t}
    {peer : Option dtls_peer_t} {sc : session_context_t}
    (h : (new_session env ctx peer).1 = some sc) :
    find_session ctx sc.address = none ∧ peer = some { session := sc.address } ∧
      (new_session env ctx peer).2 = { ctx with sessions := sc :: ctx.sessions } := by
  unfold new_session at h ⊢
  cases peer with
  | none => simp at h
  | some p =>
    by_cases h1 : (find_session ctx p.session).isSome = true
    · simp [h1] at h
    · by_cases h2 : env.malloc_ok = false
      · simp [h1, h2] at h
      · simp only [h1, h2, if_false] at h ⊢
        have hsc := Option.some.inj h
        subst hsc
        refine ⟨?_, rfl, rfl⟩
        simpa using h1

/-- A failed `new_session` leaves the context as it was. -/
theorem new_session_none {env : environment} {ctx : proxy_context_t}
    {peer : Option dtls_peer_t} (h : (new_session env ctx peer).1 = none) :
    (new_session env ctx peer).2 = ctx := by
  unfold new_session at h ⊢
  cases peer with
  | none => rfl
  | some p =>
    by_cases h1 : (find_session ctx p.session).isSome = true
    · simp [h1]
    · by_cases h2 : env.malloc_ok = false
      · simp [h1, h2]
      · simp [h1, h2] at h

/-- A failed `start_session` leaves the table as it was. -/
theorem start_session_fail {env : environment} {ctx : proxy_context_t}
    {sc : session_context_t} (h : (start_session env ctx sc).1 ≠ 0) :
    (start_session env ctx sc).2.sessions = ctx.sessions := by
  unfold start_session at h ⊢
  cases hs : env.socket with
  | none => rfl
  | some fd =>
    by_cases hc : env.connect_ok = false
    · simp [hc]
    · simp [hs, hc] at h

/-- A successful `start_session` on the session at the head of the table arms it in place. -/
theorem start_session_head {env : environment} {ctx : proxy_context_t}
    {sc : session_context_t} {rest : List session_context_t}
    (hhead : ctx.sessions = sc :: rest) (h : (start_session env ctx sc).1 = 0) :
    ∃ armed : session_context_t, armed.address = sc.address ∧
      armed.inactive_timer = some env.idle_interval ∧ armed.backend_rd_watcher = true ∧
      (start_session env ctx sc).2.sessions = armed :: rest := by
  unfold start_session at h ⊢
  cases hs : env.socket with
  | none => simp [hs] at h
  | some fd =>
    by_cases hc : env.connect_ok = false
    · simp [hs, hc] at h
    · refine ⟨{ sc with backend_fd := fd, backend_rd_watcher := true,
                        inactive_timer := some env.idle_interval }, rfl, rfl, rfl, ?_⟩
      simp [hc, hhead, update_session]

/-- The table invariant survives `new_session`: a peer that has a session gets no second. -/
theorem new_session_unique (env : environment) (ctx : proxy_context_t)
    (peer : Option dtls_peer_t) (h : sessions_unique ctx) :
    sessions_unique (new_session env ctx peer).2 := by
  cases hns : (new_session env ctx peer).1 with
  | none =>
    rw [new_session_none hns]
    exact h
  | some sc =>
    obtain ⟨habsent, _, hctx⟩ := new_session_some hns
    rw [hctx]
    unfold sessions_unique at h ⊢
    rw [List.map_cons, List.nodup_cons]
    refine ⟨?_, h⟩
    intro hmem
    obtain ⟨x, hx, hxa⟩ := List.mem_map.1 hmem
    exact (find_session_none.1 habsent) x hx hxa

/-- The table invariant survives `free_session`. -/
theorem free_session_unique (ctx : proxy_context_t) (sc : session_context_t)
    (h : sessions_unique ctx) : sessions_unique (free_session ctx sc) := by
  unfold sessions_unique at h ⊢
  exact h.sublist ((List.eraseP_sublist _).map _)

/-- The table invariant survives `stop_session`. -/
theorem stop_session_unique (ctx : proxy_context_t) (sc : session_context_t)
    (h : sessions_unique ctx) : sessions_unique (stop_session ctx sc) := by
  unfold sessions_unique at h ⊢
  rw [stop_session_addresses]
  exact h

/-- The table invariant survives `start_session`. -/
theorem start_session_unique (env : environment) (ctx : proxy_context_t)
    (sc : session_context_t) (h : sessions_unique ctx) :
    sessions_unique (start_session env ctx sc).2 := by
  unfold sessions_unique at h ⊢
  unfold start_session
  cases env.socket with
  | none => exact h
  | some fd =>
    by_cases hc : env.connect_ok = false
    · simpa [hc] using h
    · have hc' : env.connect_ok = true := by simpa using hc
      simp only [hc', Bool.true_eq_false, if_false]
      rw [map_address_update]
      · exact h
      · intro _
        rfl

/-! ## The deliver-plaintext callback -/

/-- With a session for the peer, the callback is one `send` on its backend socket. -/
theorem dtls_read_from_peer_found (env : environment) (ctx : proxy_context_t)
    (dtls_session : session_t) (data : List Byte) (sc : session_context_t)
    (h : find_session ctx dtls_session = some sc) :
    dtls_read_from_peer env ctx dtls_session data =
      (env.send sc.backend_fd data,
       { ctx with trace := ctx.trace ++ [effect.send sc.backend_fd data] }) := by
  simp [dtls_read_from_peer, h]

/-- C4: for every session table, peer and plaintext, `dtls_read_from_peer` returns `-1` and
leaves the context, its trace of calls included, untouched when `find_session` yields no
session; when it yields one, the call adds exactly one `send` to the trace, on that
session's `backend_fd` and with exactly the given bytes, and returns what that `send`
returned. -/
theorem dtls_read_from_peer_spec (env : environment) (ctx : proxy_context_t)
    (dtls_session : session_t) (data : List Byte) :
    (find_session ctx dtls_session = none →
      dtls_read_from_peer env ctx dtls_session data = (-1, ctx)) ∧
    (∀ sc, find_session ctx dtls_session = some sc →
      dtls_read_from_peer env ctx dtls_session data =
        (env.send sc.backend_fd data,
         { ctx with trace := ctx.trace ++ [effect.send sc.backend_fd data] })) := by
  constructor
  · intro h
    simp [dtls_read_from_peer, h]
  · intro sc h
    exact dtls_read_from_peer_found env ctx dtls_session data sc h

/-- The witness of C4: a record for a peer without a session is dropped, a record for the
sample peer goes out once on descriptor 5. -/
theorem dtls_read_from_peer_spec_witness :
    dtls_read_from_peer good_env (sample_ctx [] [sample_session]) other_session.address
        [104, 105] = (-1, sample_ctx [] [sample_session]) ∧
    dtls_read_from_peer good_env (sample_ctx [] [sample_session]) sample_session.address
        [104, 105] =
      (2, { sample_ctx [] [sample_session] with trace := [effect.send 5 [104, 105]] }) :=
  ⟨(dtls_read_from_peer_spec good_env (sample_ctx [] [sample_session])
      other_session.address [104, 105]).1 (by decide),
   (dtls_read_from_peer_spec good_env (sample_ctx [] [sample_session])
      sample_session.address [104, 105]).2 sample_session (by decide)⟩

/-- C8 as stated fails: with a `send` that fails, the session of the peer is still found
after `dtls_read_from_peer`. -/
theorem teardown_on_send_failure_fails :
    ¬ (∀ (env : environment) (ctx : proxy_context_t) (dtls_session : session_t)
        (data : List Byte) (sc : session_context_t),
        find_session ctx dtls_session = some sc → env.send sc.backend_fd data < 0 →
        find_session (dtls_read_from_peer env ctx dtls_session data).2 dtls_session = none) := by
  intro h
  have h1 := h failing_env (sample_ctx [] [sample_session]) sample_session.address [120]
    sample_session (by decide) (by decide)
  revert h1
  decide

/-- C8, amended: when the `send` on the session's backend socket fails,
`dtls_read_from_peer` returns the negative result of that `send` and leaves the session
table as it was: the session of the peer is still found and no session of another peer
is touched. -/
theorem dtls_read_from_peer_send_failure (env : environment) (ctx : proxy_context_t)
    (dtls_session : session_t) (data : List Byte) (sc : session_context_t)
    (hfound : find_session ctx dtls_session = some sc)
    (hfail : env.send sc.backend_fd data < 0) :
    (dtls_read_from_peer env ctx dtls_session data).1 = env.send sc.backend_fd data ∧
    (dtls_read_from_peer env ctx dtls_session data).1 < 0 ∧
    (dtls_read_from_peer env ctx dtls_session data).2.sessions = ctx.sessions ∧
    find_session (dtls_read_from_peer env ctx dtls_session data).2 dtls_session = some sc := by
  have h := dtls_read_from_peer_found env ctx dtls_session data sc hfound
  rw [h]
  refine ⟨rfl, hfail, rfl, ?_⟩
  simpa [find_session] using hfound

/-- The witness of C8, amended: two peers have sessions and the send for the first fails. -/
theorem dtls_read_from_peer_send_failure_witness :
    (dtls_read_from_peer failing_env (sample_ctx [] [sample_session, other_session])
        sample_session.address [120]).1 = -1 ∧
    (dtls_read_from_peer failing_env (sample_ctx [] [sample_session, other_session])
        sample_session.address [120]).2.sessions = [sample_session, other_session] :=
  have h := dtls_read_from_peer_send_failure failing_env
    (sample_ctx [] [sample_session, other_session]) sample_session.address [120]
    sample_session (by decide) (by decide)
  ⟨h.1, h.2.2.1⟩

/-- C9 as stated fails: a session whose timer has one second left still has one second
left after `dtls_read_from_peer`, not the idle interval of 300. -/
theorem timer_rearmed_fails :
    ¬ (∀ (env : environment) (ctx : proxy_context_t) (dtls_session : session_t)
        (data : List Byte) (sc : session_context_t),
        find_session ctx dtls_session = some sc →
        ∃ sc', find_session (dtls_read_from_peer env ctx dtls_session data).2 dtls_session
            = some sc' ∧ sc'.inactive_timer = some env.idle_interval) := by
  intro h
  obtain ⟨sc', h1, h2⟩ := h good_env (sample_ctx [] [sample_session]) sample_session.address
    [120] sample_session (by decide)
  have h3 : find_session (dtls_read_from_peer good_env (sample_ctx [] [sample_session])
      sample_session.address [120]).2 sample_session.address = some sample_session := by
    decide
  rw [h3] at h1
  have h4 := Option.some.inj h1
  subst h4
  revert h2
  decide

/-- C9, amended: whenever `dtls_read_from_peer` is invoked for a peer that has a session,
the session is found afterwards exactly as it was, its inactivity timer included: the
callback does not rearm the timer. -/
theorem dtls_read_from_peer_keeps_timer (env : environment) (ctx : proxy_context_t)
    (dtls_session : session_t) (data : List Byte) (sc : session_context_t)
    (hfound : find_session ctx dtls_session = some sc) :
    ∃ sc', find_session (dtls_read_from_peer env ctx dtls_session data).2 dtls_session
        = some sc' ∧ sc' = sc ∧ sc'.inactive_timer = sc.inactive_timer := by
  have h := dtls_read_from_peer_found env ctx dtls_session data sc hfound
  rw [h]
  exact ⟨sc, by simpa [find_session] using hfound, rfl, rfl⟩

/-- The witness of C9, amended: the sample session keeps its one remaining second. -/
theorem dtls_read_from_peer_keeps_timer_witness :
    ∃ sc', find_session (dtls_read_from_peer good_env (sample_ctx [] [sample_session])
          sample_session.address [120]).2 sample_session.address = some sc' ∧
        sc' = sample_session ∧ sc'.inactive_timer = sample_session.inactive_timer :=
  dtls_read_from_peer_keeps_timer good_env (sample_ctx [] [sample_session])
    sample_session.address [120] sample_session (by decide)

/-! ## The event callback -/

/-- C5: for the `CONNECTED` event, `dtls_event` returns 0 exactly when `new_session` and
then `start_session` both succeed, and then the new session, armed, heads the table in
front of the sessions that were there; if `new_session` fails it returns `-1` with the
context unchanged; if `start_session` fails it returns `-1`, the table is what it was
before the event and no session for that peer is found in it. -/
theorem dtls_event_connected (env : environment) (ctx : proxy_context_t)
    (dtls_session : session_t) (peer : Option dtls_peer_t) (level : Nat) :
    ((dtls_event env ctx dtls_session peer level .DTLS_EVENT_CONNECTED).1 = 0 ↔
      ∃ sc, (new_session env ctx peer).1 = some sc ∧
        (start_session env (new_session env ctx peer).2 sc).1 = 0) ∧
    (∀ sc, (new_session env ctx peer).1 = some sc →
      (start_session env (new_session env ctx peer).2 sc).1 = 0 →
      ∃ armed : session_context_t, armed.address = sc.address ∧
        (dtls_event env ctx dtls_session peer level .DTLS_EVENT_CONNECTED).2.sessions
          = armed :: ctx.sessions ∧
        find_session (dtls_event env ctx dtls_session peer level .DTLS_EVENT_CONNECTED).2
          sc.address = some armed) ∧
    ((new_session env ctx peer).1 = none →
      dtls_event env ctx dtls_session peer level .DTLS_EVENT_CONNECTED = (-1, ctx)) ∧
    (∀ sc, (new_session env ctx peer).1 = some sc →
      (start_session env (new_session env ctx peer).2 sc).1 ≠ 0 →
      (dtls_event env ctx dtls_session peer level .DTLS_EVENT_CONNECTED).1 = -1 ∧
      (dtls_event env ctx dtls_session peer level .DTLS_EVENT_CONNECTED).2.sessions
        = ctx.sessions ∧
      find_session (dtls_event env ctx dtls_session peer level .DTLS_EVENT_CONNECTED).2
        sc.address = none) := by
  rcases hns : new_session env ctx peer with ⟨o, ctx1⟩
  cases o with
  | none =>
    have hctx : ctx1 = ctx := by
      have := @new_session_none env ctx peer (by rw [hns])
      rw [hns] at this
      exact this
    subst hctx
    simp [dtls_event, hns]
  | some sc0 =>
    obtain ⟨habsent, _, hctx1⟩ :=
      @new_session_some env ctx peer sc0 (by rw [hns])
    rw [hns] at hctx1
    simp only at hctx1
    rcases hst : start_session env ctx1 sc0 with ⟨r, ctx2⟩
    have hhead : ctx1.sessions = sc0 :: ctx.sessions := by rw [hctx1]
    have hst1 : (start_session env (some sc0, ctx1).2 sc0).1 = r := by
      show (start_session env ctx1 sc0).1 = r
      rw [hst]
    by_cases hr : r = 0
    · subst hr
      obtain ⟨armed, ha, _, _, hsess⟩ :=
        @start_session_head env ctx1 sc0 ctx.sessions hhead (by rw [hst])
      rw [hst] at hsess
      simp only at hsess
      have hev : dtls_event env ctx dtls_session peer level .DTLS_EVENT_CONNECTED
          = (0, ctx2) := by
        simp [dtls_event, hns, hst]
      rw [hev]
      refine ⟨⟨fun _ => ⟨sc0, rfl, hst1⟩, fun _ => rfl⟩, ?_, ?_, ?_⟩
      · intro sc hsc _
        have hsc' : sc0 = sc := Option.some.inj hsc
        subst hsc'
        refine ⟨armed, ha, hsess, ?_⟩
        simp [find_session, hsess, ha]
      · intro h
        simp at h
      · intro sc hsc hne
        have hsc' : sc0 = sc := Option.some.inj hsc
        subst hsc'
        exact absurd hst1 hne
    · have hsess : ctx2.sessions = ctx1.sessions := by
        have := @start_session_fail env ctx1 sc0
          (by rw [hst]; exact hr)
        rw [hst] at this
        exact this
      have hev : dtls_event env ctx dtls_session peer level .DTLS_EVENT_CONNECTED
          = (-1, free_session ctx2 sc0) := by
        simp [dtls_event, hns, hst, hr]
      have hfree : (free_session ctx2 sc0).sessions = ctx.sessions := by
        simp [free_session, hsess, hhead]
      rw [hev]
      refine ⟨⟨fun h => by simp at h, ?_⟩, ?_, ?_, ?_⟩
      · rintro ⟨sc, hsc, h0⟩
        have hsc' : sc0 = sc := Option.some.inj hsc
        subst hsc'
        exact absurd (hst1.symm.trans h0) hr
      · intro sc hsc h0
        have hsc' : sc0 = sc := Option.some.inj hsc
        subst hsc'
        exact absurd (hst1.symm.trans h0) hr
      · intro h
        simp at h
      · intro sc hsc _
        have hsc' : sc0 = sc := Option.some.inj hsc
        subst hsc'
        refine ⟨rfl, hfree, ?_⟩
        rw [find_session_none] at habsent ⊢
        rw [hfree]
        exact habsent

/-- The witness of C5: a handshake completes while `10.0.0.8` already has a session. With
everything available the session of `10.0.0.7` is created; out of memory nothing changes;
with a backend that cannot be connected the new session is freed again. -/
theorem dtls_event_connected_witness :
    (dtls_event good_env (sample_ctx [] [other_session]) sample_session.address
        (some { session := sample_session.address }) 1 .DTLS_EVENT_CONNECTED).1 = 0 ∧
    dtls_event exhausted_env (sample_ctx [] [other_session]) sample_session.address
        (some { session := sample_session.address }) 1 .DTLS_EVENT_CONNECTED
      = (-1, sample_ctx [] [other_session]) ∧
    (dtls_event failing_env (sample_ctx [] [other_session]) sample_session.address
        (some { session := sample_session.address }) 1 .DTLS_EVENT_CONNECTED).2.sessions
      = [other_session] :=
  ⟨(dtls_event_connected good_env (sample_ctx [] [other_session]) sample_session.address
      (some { session := sample_session.address }) 1).1.2
      ⟨{ address := sample_session.address, index := 0, backend_fd := -1,
         backend_rd_watcher := false, inactive_timer := none }, by decide, by decide⟩,
   (dtls_event_connected exhausted_env (sample_ctx [] [other_session])
      sample_session.address (some { session := sample_session.address }) 1).2.2.1
      (by decide),
   ((dtls_event_connected failing_env (sample_ctx [] [other_session])
      sample_session.address (some { session := sample_session.address }) 1).2.2.2
      { address := sample_session.address, index := 0, backend_fd := -1,
        backend_rd_watcher := false, inactive_timer := none } (by decide) (by decide)).2.1⟩

/-- C6: for the `CLOSE_NOTIFY` event, `dtls_event` returns 0 in every case. If the peer has
no session the context is unchanged. If it has one, that session is stopped (a live one has
its watcher and timer stopped and its backend socket closed) and then freed: in a table
with one session per peer, `find_session` for that peer yields none afterwards, and the
sessions of all other peers are in the table exactly as before. -/
theorem dtls_event_close_notify (env : environment) (ctx : proxy_context_t)
    (dtls_session : session_t) (peer : Option dtls_peer_t) (level : Nat) :
    (dtls_event env ctx dtls_session peer level .DTLS_ALERT_CLOSE_NOTIFY).1 = 0 ∧
    (find_session ctx dtls_session = none →
      (dtls_event env ctx dtls_session peer level .DTLS_ALERT_CLOSE_NOTIFY).2 = ctx) ∧
    (∀ sc, find_session ctx dtls_session = some sc → session_stopped sc = false →
      (dtls_event env ctx dtls_session peer level .DTLS_ALERT_CLOSE_NOTIFY).2.trace =
        ctx.trace ++ [effect.ev_io_stop sc.backend_fd, effect.ev_timer_stop sc.address,
                      effect.close sc.backend_fd]) ∧
    (sessions_unique ctx →
      find_session (dtls_event env ctx dtls_session peer level .DTLS_ALERT_CLOSE_NOTIFY).2
        dtls_session = none) ∧
    (∀ x : session_context_t, x.address ≠ dtls_session →
      (x ∈ (dtls_event env ctx dtls_session peer level .DTLS_ALERT_CLOSE_NOTIFY).2.sessions
        ↔ x ∈ ctx.sessions)) := by
  cases hfind : find_session ctx dtls_session with
  | none =>
    have hev : dtls_event env ctx dtls_session peer level .DTLS_ALERT_CLOSE_NOTIFY
        = (0, ctx) := by
      simp [dtls_event, hfind]
    rw [hev]
    refine ⟨rfl, fun _ => rfl, ?_, fun _ => hfind, fun _ _ => Iff.rfl⟩
    intro sc h
    simp at h
  | some sc0 =>
    have haddr : sc0.address = dtls_session := (find_session_some hfind).2
    have hev : dtls_event env ctx dtls_session peer level .DTLS_ALERT_CLOSE_NOTIFY
        = (0, free_session (stop_session ctx sc0) sc0) := by
      simp [dtls_event, hfind]
    rw [hev]
    refine ⟨rfl, ?_, ?_, ?_, ?_⟩
    · intro h
      simp at h
    · intro sc hsc hlive
      have hsc' : sc0 = sc := Option.some.inj hsc
      subst hsc'
      simp [free_session, stop_session, haddr, hfind, hlive]
    · intro huniq
      rw [find_session_none]
      intro x hx
      have hnd : ((stop_session ctx sc0).sessions.map (fun s => s.address)).Nodup := by
        rw [stop_session_addresses]
        exact huniq
      have := eraseP_no_addr sc0.address _ hnd x hx
      rwa [haddr] at this
    · intro x hx
      have hx' : x.address ≠ sc0.address := by rwa [haddr]
      simp only [free_session]
      rw [mem_eraseP_other sc0.address x hx', stop_session_other ctx sc0 x hx']

/-- The witness of C6: the peer `10.0.0.7` closes while `10.0.0.8` also has a session. -/
theorem dtls_event_close_notify_witness :
    sessions_unique (sample_ctx [] [sample_session, other_session]) ∧
    find_session (dtls_event good_env (sample_ctx [] [sample_session, other_session])
        sample_session.address none 1 .DTLS_ALERT_CLOSE_NOTIFY).2 sample_session.address
      = none ∧
    (other_session ∈ (dtls_event good_env (sample_ctx [] [sample_session, other_session])
        sample_session.address none 1 .DTLS_ALERT_CLOSE_NOTIFY).2.sessions
      ↔ other_session ∈ (sample_ctx [] [sample_session, other_session]).sessions) ∧
    (dtls_event good_env (sample_ctx [] [sample_session, other_session])
        sample_session.address none 1 .DTLS_ALERT_CLOSE_NOTIFY).2.trace
      = [effect.ev_io_stop 5, effect.ev_timer_stop sample_session.address, effect.close 5] :=
  have h := dtls_event_close_notify good_env (sample_ctx [] [sample_session, other_session])
    sample_session.address none 1
  ⟨by decide, h.2.2.2.1 (by decide), h.2.2.2.2 other_session (by decide),
   h.2.2.1 sample_session (by decide) (by decide)⟩

/-! ## The listen-socket handler -/

/-- C7: a datagram longer than the receive buffer is not dropped. `proxy_cb` logs the
truncation and then still calls `dtls_handle_message`, with the buffer holding the first
`DTLS_MAX_BUF` bytes and with the full length of the datagram, which exceeds the buffer. -/
theorem proxy_cb_truncated (DTLS_MAX_BUF : Nat) (ctx : proxy_context_t) (buf : List Byte)
    (src : session_t) (datagram : List Byte) (hlong : DTLS_MAX_BUF < datagram.length) :
    proxy_cb DTLS_MAX_BUF ctx buf (some (src, datagram)) =
      { ctx with trace := ctx.trace ++
          [effect.err_truncated ((datagram.length : Int) - DTLS_MAX_BUF),
           effect.dtls_handle_message src
             (datagram.take DTLS_MAX_BUF ++ buf.drop DTLS_MAX_BUF) datagram.length] } := by
  have hmin : min datagram.length DTLS_MAX_BUF = DTLS_MAX_BUF := Nat.min_eq_right hlong.le
  have hlt : (DTLS_MAX_BUF : Int) < (datagram.length : Int) := by exact_mod_cast hlong
  have hnn : ¬ ((datagram.length : Int) < 0) := by omega
  simp [proxy_cb, recvfrom_trunc, memcpy, hmin, hlt, hnn]

/-- The witness of C7: with a buffer of 1400 bytes, a datagram of 1401 bytes reaches the
engine with length 1401. -/
theorem proxy_cb_truncated_witness :
    1400 < (List.replicate 1401 (7 : Byte)).length ∧
    effect.dtls_handle_message sample_session.address
        ((List.replicate 1401 (7 : Byte)).take 1400 ++ (List.replicate 1400 (0 : Byte)).drop 1400)
        ((List.replicate 1401 (7 : Byte)).length : Int)
      ∈ (proxy_cb 1400 (sample_ctx [] []) (List.replicate 1400 0)
          (some (sample_session.address, List.replicate 1401 7))).trace :=
  ⟨by rw [List.length_replicate]; omega, by
    rw [proxy_cb_truncated 1400 (sample_ctx [] []) (List.replicate 1400 0)
      sample_session.address (List.replicate 1401 7)
      (by rw [List.length_replicate]; omega)]
    exact List.mem_append_right _ (List.mem_cons_of_mem _ (List.mem_cons_self _ _))⟩

/-! ## Shutdown -/

/-- Freeing the session at the head of the table leaves the rest of the table. -/
theorem free_session_head (ctx : proxy_context_t) (sc : session_context_t)
    (rest : List session_context_t) (h : ctx.sessions = sc :: rest) :
    (free_session ctx sc).sessions = rest := by
  simp [free_session, h]

/-- The last element of a list with a first element, with a default. -/
theorem getLast_getD_cons {α : Type} (a d : α) (l : List α) :
    ((a :: l).getLast?).getD d = (l.getLast?).getD a := by
  cases l with
  | nil => rfl
  | cons b t =>
    rw [List.getLast?_cons_cons, List.getLast?_eq_getLast _ (List.cons_ne_nil b t)]
    rfl

/-- The last element of a list that ends in two given elements. -/
theorem getLast_append_pair {α : Type} (l : List α) (a b : α) :
    (l ++ [a, b]).getLast? = some b := by
  have h : l ++ [a, b] = (l ++ [a]) ++ [b] := by simp
  rw [h, List.getLast?_concat]

/-- The loop of `proxy_deinit` ends: with fuel for every session it runs until the table
is empty, and it touches neither the listen socket nor the trace. -/
theorem deinit_sessions_total :
    ∀ (fuel : Nat) (ctx : proxy_context_t), ctx.sessions.length ≤ fuel →
      ∃ freed, deinit_sessions fuel ctx = some freed ∧
        ((freed.getLast?).getD ctx).sessions = [] ∧
        ∀ c ∈ freed, c.listen = ctx.listen ∧ c.trace = ctx.trace := by
  intro fuel
  induction fuel with
  | zero =>
    intro ctx hlen
    have hnil : ctx.sessions = [] := List.length_eq_zero.1 (Nat.le_zero.1 hlen)
    refine ⟨[], ?_, ?_, ?_⟩
    · unfold deinit_sessions
      simp [hnil]
    · simpa using hnil
    · intro c hc
      simp at hc
  | succ n ih =>
    intro ctx hlen
    cases hs : ctx.sessions with
    | nil =>
      refine ⟨[], ?_, ?_, ?_⟩
      · unfold deinit_sessions
        simp [hs]
      · simpa using hs
      · intro c hc
        simp at hc
    | cons sc rest =>
      have hrest : (free_session ctx sc).sessions = rest := free_session_head ctx sc rest hs
      have hlen' : (free_session ctx sc).sessions.length ≤ n := by
        rw [hrest]
        rw [hs, List.length_cons] at hlen
        omega
      obtain ⟨freed, hrun, hlast, hsame⟩ := ih (free_session ctx sc) hlen'
      refine ⟨free_session ctx sc :: freed, ?_, ?_, ?_⟩
      · unfold deinit_sessions
        simp [hs, hrun]
      · rw [getLast_getD_cons]
        exact hlast
      · intro c hc
        rcases List.mem_cons.1 hc with rfl | hc
        · exact ⟨rfl, rfl⟩
        · exact hsame c hc

/-- C10 as stated fails: after the first statement of `proxy_deinit` the listen socket is
closed while the session of the sample peer is still in the table. -/
theorem listen_outlives_sessions_fails :
    ¬ (∀ (ctx : proxy_context_t) (states : List proxy_context_t), 0 < ctx.listen.fd →
        proxy_deinit_states ctx.sessions.length ctx = some states →
        ∀ c ∈ states, c.sessions ≠ [] → 0 < c.listen.fd) := by
  intro h
  have h1 := h (sample_ctx [] [sample_session])
    ((proxy_deinit_states 1 (sample_ctx [] [sample_session])).getD [])
    (by decide) (by decide) (deinit_listen_fd (sample_ctx [] [sample_session]))
    (by decide) (by decide)
  revert h1
  decide

/-- C10, amended: `proxy_deinit` runs to its end. Its first statement closes the listen
socket when it is open (descriptor positive): after it the descriptor is -1 and the `close`
of the listen descriptor is the one effect added, while every session is still in the
table; at every later point the descriptor is not positive and that `close` precedes all
further effects. The sessions are all freed before the DTLS context and the keystore: at
each point where either has been freed the table is empty, the keystore is never freed
before the DTLS context, and at the end the effects added are, in this order, the `close`
of the listen socket, `dtls_free_context` and `free_keystore`. -/
theorem proxy_deinit_order (ctx : proxy_context_t)
    (hdtls : effect.dtls_free_context ∉ ctx.trace)
    (hpsk : effect.free_keystore ∉ ctx.trace) :
    ∃ states, proxy_deinit_states ctx.sessions.length ctx = some states ∧
      (∃ first, states.head? = some first ∧ first.sessions = ctx.sessions ∧
        first.trace = ctx.trace ++
          (if 0 < ctx.listen.fd then [effect.close ctx.listen.fd] else []) ∧
        (0 < ctx.listen.fd → first.listen.fd = -1)) ∧
      (∀ c ∈ states, c.listen.fd ≤ 0 ∧
        ∃ rest, c.trace = ctx.trace ++
          (if 0 < ctx.listen.fd then [effect.close ctx.listen.fd] else []) ++ rest) ∧
      (∀ c ∈ states, (effect.dtls_free_context ∈ c.trace ∨ effect.free_keystore ∈ c.trace) →
        c.sessions = []) ∧
      (∀ c ∈ states, effect.free_keystore ∈ c.trace → effect.dtls_free_context ∈ c.trace) ∧
      (∃ final, states.getLast? = some final ∧ final.sessions = [] ∧
        final.trace = ctx.trace ++
          (if 0 < ctx.listen.fd then [effect.close ctx.listen.fd] else []) ++
          [effect.dtls_free_context, effect.free_keystore]) := by
  -- the first statement
  have hfd1 : (deinit_listen_fd ctx).listen.fd ≤ 0 := by
    unfold deinit_listen_fd
    by_cases h : ctx.listen.fd > 0
    · simp [h]
    · simp only [h, if_false]
      omega
  have hfd1' : 0 < ctx.listen.fd → (deinit_listen_fd ctx).listen.fd = -1 := by
    intro h
    have h' : ctx.listen.fd > 0 := h
    simp [deinit_listen_fd, h']
  have htr1e : (deinit_listen_fd ctx).trace = ctx.trace ++
      (if 0 < ctx.listen.fd then [effect.close ctx.listen.fd] else []) := by
    unfold deinit_listen_fd
    by_cases h : ctx.listen.fd > 0
    · have h' : 0 < ctx.listen.fd := h
      simp [h, h']
    · have h' : ¬ 0 < ctx.listen.fd := h
      simp [h, h']
  have htr1 : effect.dtls_free_context ∉ (deinit_listen_fd ctx).trace ∧
      effect.free_keystore ∉ (deinit_listen_fd ctx).trace := by
    unfold deinit_listen_fd
    by_cases h : ctx.listen.fd > 0
    · simp [h, hdtls, hpsk]
    · simp [h, hdtls, hpsk]
  have hs1 : (deinit_listen_fd ctx).sessions = ctx.sessions := by
    unfold deinit_listen_fd
    by_cases h : ctx.listen.fd > 0 <;> simp [h]
  -- the two statements freeing the addresses
  have h2 : ∀ c : proxy_context_t, (deinit_listen_addr c).listen.fd = c.listen.fd ∧
      (deinit_listen_addr c).trace = c.trace ∧
      (deinit_listen_addr c).sessions = c.sessions := by
    intro c
    unfold deinit_listen_addr
    by_cases h : c.listen.addr ≠ none <;> simp [h]
  have h3 : ∀ c : proxy_context_t, (deinit_backends c).listen.fd = c.listen.fd ∧
      (deinit_backends c).trace = c.trace ∧ (deinit_backends c).sessions = c.sessions := by
    intro c
    unfold deinit_backends
    by_cases h : c.backends.addr ≠ none <;> simp [h]
  -- the loop
  have hlen : (deinit_backends (deinit_listen_addr (deinit_listen_fd ctx))).sessions.length
      ≤ ctx.sessions.length := by
    rw [(h3 _).2.2, (h2 _).2.2, hs1]
  obtain ⟨freed, hrun, hlast, hsame⟩ := deinit_sessions_total _ _ hlen
  -- every context up to the end of the loop has the listen socket and trace of the first
  have hpre : ∀ c ∈ [deinit_listen_fd ctx, deinit_listen_addr (deinit_listen_fd ctx),
      deinit_backends (deinit_listen_addr (deinit_listen_fd ctx))] ++ freed,
      c.listen.fd = (deinit_listen_fd ctx).listen.fd ∧
        c.trace = (deinit_listen_fd ctx).trace := by
    intro c hc
    rcases List.mem_append.1 hc with hc | hc
    · simp only [List.mem_cons, List.mem_singleton, List.not_mem_nil, or_false] at hc
      rcases hc with rfl | rfl | rfl
      · exact ⟨rfl, rfl⟩
      · exact ⟨(h2 _).1, (h2 _).2.1⟩
      · exact ⟨by rw [(h3 _).1, (h2 _).1], by rw [(h3 _).2.1, (h2 _).2.1]⟩
    · obtain ⟨hl, ht⟩ := hsame c hc
      exact ⟨by rw [hl, (h3 _).1, (h2 _).1], by rw [ht, (h3 _).2.1, (h2 _).2.1]⟩
  -- the context the loop ends in
  have hc4 : (freed.getLast?).getD
      (deinit_backends (deinit_listen_addr (deinit_listen_fd ctx))) ∈
      [deinit_listen_fd ctx, deinit_listen_addr (deinit_listen_fd ctx),
        deinit_backends (deinit_listen_addr (deinit_listen_fd ctx))] ++ freed := by
    cases hg : freed.getLast? with
    | none => simp
    | some c =>
      have : c ∈ freed := List.mem_of_getLast?_eq_some hg
      simp [this]
  obtain ⟨hfd4, htr4⟩ := hpre _ hc4
  -- the two statements after the loop
  have htr5 : (deinit_dtls ((freed.getLast?).getD
      (deinit_backends (deinit_listen_addr (deinit_listen_fd ctx))))).trace =
      (deinit_listen_fd ctx).trace ++ [effect.dtls_free_context] := by
    simp [deinit_dtls, htr4]
  have htr6 : (deinit_keystore (deinit_dtls ((freed.getLast?).getD
      (deinit_backends (deinit_listen_addr (deinit_listen_fd ctx)))))).trace =
      (deinit_listen_fd ctx).trace ++ [effect.dtls_free_context, effect.free_keystore] := by
    simp [deinit_keystore, deinit_dtls, htr4]
  have hfd5 : (deinit_dtls ((freed.getLast?).getD
      (deinit_backends (deinit_listen_addr (deinit_listen_fd ctx))))).listen.fd ≤ 0 := by
    show (freed.getLast?.getD _).listen.fd ≤ 0
    rw [hfd4]
    exact hfd1
  have hfd6 : (deinit_keystore (deinit_dtls ((freed.getLast?).getD
      (deinit_backends (deinit_listen_addr (deinit_listen_fd ctx)))))).listen.fd ≤ 0 := by
    show (freed.getLast?.getD _).listen.fd ≤ 0
    rw [hfd4]
    exact hfd1
  refine ⟨[deinit_listen_fd ctx, deinit_listen_addr (deinit_listen_fd ctx),
      deinit_backends (deinit_listen_addr (deinit_listen_fd ctx))] ++ freed ++
      [deinit_dtls ((freed.getLast?).getD
          (deinit_backends (deinit_listen_addr (deinit_listen_fd ctx)))),
       deinit_keystore (deinit_dtls ((freed.getLast?).getD
          (deinit_backends (deinit_listen_addr (deinit_listen_fd ctx)))))],
    by simp only [proxy_deinit_states, hrun], ?_, ?_, ?_, ?_, ?_⟩
  · exact ⟨deinit_listen_fd ctx, rfl, hs1, htr1e, hfd1'⟩
  · intro c hc
    rcases List.mem_append.1 hc with hc | hc
    · refine ⟨by rw [(hpre c hc).1]; exact hfd1, [], ?_⟩
      rw [(hpre c hc).2, htr1e, List.append_nil]
    · simp only [List.mem_cons, List.mem_singleton, List.not_mem_nil, or_false] at hc
      rcases hc with rfl | rfl
      · exact ⟨hfd5, [effect.dtls_free_context], by rw [htr5, htr1e]⟩
      · exact ⟨hfd6, [effect.dtls_free_context, effect.free_keystore], by rw [htr6, htr1e]⟩
  · intro c hc hfreed
    rcases List.mem_append.1 hc with hc | hc
    · rw [(hpre c hc).2] at hfreed
      rcases hfreed with hf | hf
      · exact absurd hf htr1.1
      · exact absurd hf htr1.2
    · simp only [List.mem_cons, List.mem_singleton, List.not_mem_nil, or_false] at hc
      rcases hc with rfl | rfl
      · exact hlast
      · exact hlast
  · intro c hc hks
    rcases List.mem_append.1 hc with hc | hc
    · rw [(hpre c hc).2] at hks
      exact absurd hks htr1.2
    · simp only [List.mem_cons, List.mem_singleton, List.not_mem_nil, or_false] at hc
      rcases hc with rfl | rfl
      · rw [htr5]
        simp
      · rw [htr6]
        simp
  · refine ⟨deinit_keystore (deinit_dtls ((freed.getLast?).getD
        (deinit_backends (deinit_listen_addr (deinit_listen_fd ctx))))), ?_, ?_, ?_⟩
    · exact getLast_append_pair _ _ _
    · simpa [deinit_keystore, deinit_dtls] using hlast
    · rw [htr6, htr1e]

/-- The witness of C10, amended: shutting down with two sessions in the table and the
listen socket open on descriptor 3. -/
theorem proxy_deinit_order_witness :
    ∃ states, proxy_deinit_states 2 (sample_ctx [] [sample_session, other_session])
        = some states ∧
      (∃ first, states.head? = some first ∧
        first.sessions = [sample_session, other_session] ∧
        first.trace = [effect.close 3] ∧ first.listen.fd = -1) ∧
      (∀ c ∈ states, effect.free_keystore ∈ c.trace → effect.dtls_free_context ∈ c.trace) ∧
      (∃ final, states.getLast? = some final ∧ final.sessions = [] ∧
        final.trace = [effect.close 3, effect.dtls_free_context, effect.free_keystore]) := by
  obtain ⟨states, hrun, ⟨first, hhead, hsess, htrace, hfd⟩, _, _, horder,
      ⟨final, hlast, hempty, hfinal⟩⟩ :=
    proxy_deinit_order (sample_ctx [] [sample_session, other_session])
      (by decide) (by decide)
  exact ⟨states, hrun, ⟨first, hhead, hsess, htrace, hfd (by decide)⟩, horder,
    ⟨final, hlast, hempty, hfinal⟩⟩

end DtlsProxy
